import Mathlib

/-!
Shallow embedding of the motion core of the solar-system visualization:
the orbital motion updater (`PlanetPhysics.updatePosition`), the spaceship
controller (`moveAndRotateSpaceShip`), and the keyboard listeners that
drive the ship's input flags, translated from the TypeScript source.
Real-number arithmetic stands in for JavaScript floating point.
-/

open Real

/-- A 3D vector, standing in for `THREE.Vector3` (used both for positions
and for Euler-angle `rotation` triples `(x, y, z)`). -/
structure Vec3 where
  x : ℝ
  y : ℝ
  z : ℝ

/-- The per-body orbital parameters of `PlanetPhysics` (`PhysicsParams`):
orbit radius, orbital angular velocity (`rotationVelocity`), self-rotation
velocity and the orbit center. -/
structure PhysicsParams where
  radius : ℝ
  rotationVelocity : ℝ
  selfRotationVelocity : ℝ
  rotationCenter : Vec3

/-- The mutable state a `PlanetPhysics` instance drives: the mesh position
(`ownMesh.position`), the mesh's own y-rotation (`ownMesh.rotation.y`) and
the accumulated orbit phase `t`. -/
structure PlanetState where
  position : Vec3
  rotationY : ℝ
  t : ℝ

/-- `PlanetPhysics.updatePosition(dt)` from the source:
`x = radius * sin(t * rotationVelocity) + rotationCenter.x`,
`z = radius * cos(t * rotationVelocity) + rotationCenter.z`,
`ownMesh.position.set(x, 0, z)` and
`ownMesh.rotation.y += selfRotationVelocity * dt`. -/
noncomputable def updatePosition (p : PhysicsParams) (s : PlanetState) (dt : ℝ) :
    PlanetState :=
  let x := p.radius * Real.sin (s.t * p.rotationVelocity) + p.rotationCenter.x
  let z := p.radius * Real.cos (s.t * p.rotationVelocity) + p.rotationCenter.z
  { position := ⟨x, 0, z⟩
    rotationY := s.rotationY + p.selfRotationVelocity * dt
    t := s.t }

/-- The position `updatePosition` computes at orbit phase `t`. -/
noncomputable def orbitPos (p : PhysicsParams) (t : ℝ) : Vec3 :=
  ⟨p.radius * Real.sin (t * p.rotationVelocity) + p.rotationCenter.x, 0,
   p.radius * Real.cos (t * p.rotationVelocity) + p.rotationCenter.z⟩

/-- Modelled from the spec: the phase accumulator of `PlanetPhysics` is not
shown in the source excerpt (`updatePosition` reads `this.t` but the line
advancing it is missing); the spec states the updater accumulates an internal
phase `t += dt` each advance, before the position formula is evaluated. -/
noncomputable def advance (p : PhysicsParams) (s : PlanetState) (dt : ℝ) :
    PlanetState :=
  updatePosition p { s with t := s.t + dt } dt

/-- Folding `advance` over a whole sequence of frame deltas. -/
noncomputable def advanceSeq (p : PhysicsParams) (s : PlanetState)
    (dts : List ℝ) : PlanetState :=
  dts.foldl (fun acc dt => advance p acc dt) s

lemma updatePosition_position (p : PhysicsParams) (s : PlanetState) (dt : ℝ) :
    (updatePosition p s dt).position = orbitPos p s.t := rfl

lemma advance_t (p : PhysicsParams) (s : PlanetState) (dt : ℝ) :
    (advance p s dt).t = s.t + dt := rfl

lemma advance_position (p : PhysicsParams) (s : PlanetState) (dt : ℝ) :
    (advance p s dt).position = orbitPos p (s.t + dt) := rfl

/-- Concrete parameters witnessing that the update ignores `center.y`. -/
noncomputable def pYcex : PhysicsParams := ⟨1, 1, 0, ⟨0, 1, 0⟩⟩

/-- Concrete planet state used alongside `pYcex`. -/
noncomputable def sYcex : PlanetState := ⟨⟨0, 1, 1⟩, 0, 0⟩

/-- C1 counterexample: the claim says the update places the body at
`y = center.y`, but the source writes `position.set(x, 0, z)` — the y
coordinate is the constant `0` regardless of the center.  With a center
whose y-coordinate is `1`, the computed y-coordinate is `0 ≠ 1`. -/
theorem orbit_y_ignores_center_y :
    (updatePosition pYcex sYcex 1).position.y ≠ pYcex.rotationCenter.y := by
  simp [updatePosition, pYcex, sYcex]

/-- C1 (amended): for every parameter record with radius `r > 0`, center `c`,
angular velocity `w`, and state with accumulated phase `t`, the orbital
motion update places the body at `x = r*sin(t*w) + c.x`,
`z = r*cos(t*w) + c.z`, and `y = 0` (the constant 0, not `c.y`). -/
theorem updatePosition_position_formula (p : PhysicsParams) (s : PlanetState)
    (dt : ℝ) (hr : 0 < p.radius) :
    (updatePosition p s dt).position =
      ⟨p.radius * Real.sin (s.t * p.rotationVelocity) + p.rotationCenter.x, 0,
       p.radius * Real.cos (s.t * p.rotationVelocity) + p.rotationCenter.z⟩ :=
  rfl

/-- Witness for the amended C1 at concrete inputs. -/
theorem updatePosition_position_formula_witness :
    (0 : ℝ) < pYcex.radius ∧
      (updatePosition pYcex sYcex 1).position =
        ⟨pYcex.radius * Real.sin (sYcex.t * pYcex.rotationVelocity) +
            pYcex.rotationCenter.x, 0,
         pYcex.radius * Real.cos (sYcex.t * pYcex.rotationVelocity) +
            pYcex.rotationCenter.z⟩ :=
  ⟨by norm_num [pYcex], updatePosition_position_formula pYcex sYcex 1
    (by norm_num [pYcex])⟩

lemma advanceSeq_closed (p : PhysicsParams) (dts : List ℝ) :
    ∀ s : PlanetState, s.position = orbitPos p s.t →
      (advanceSeq p s dts).position = orbitPos p (s.t + dts.sum) ∧
        (advanceSeq p s dts).t = s.t + dts.sum := by
  induction dts with
  | nil =>
      intro s h0
      simpa [advanceSeq] using h0
  | cons dt dts ih =>
      intro s h0
      have hstep := ih (advance p s dt) (advance_position p s dt)
      have ht : (advance p s dt).t = s.t + dt := advance_t p s dt
      rw [ht] at hstep
      constructor
      · calc (advanceSeq p s (dt :: dts)).position
            = (advanceSeq p (advance p s dt) dts).position := rfl
          _ = orbitPos p (s.t + dt + dts.sum) := hstep.1
          _ = orbitPos p (s.t + (dt :: dts).sum) := by
              rw [List.sum_cons, add_assoc]
      · calc (advanceSeq p s (dt :: dts)).t
            = (advanceSeq p (advance p s dt) dts).t := rfl
          _ = s.t + dt + dts.sum := hstep.2
          _ = s.t + (dt :: dts).sum := by rw [List.sum_cons]; ring

/-- C8: for every orbital parameter record with radius `R > 0` and nonzero
angular velocity, advancing the phase by any sequence of `dt` values summing
to one full period `2π/rotationVelocity` returns the computed position
exactly to its starting position (over the reals). -/
theorem orbit_periodicity (p : PhysicsParams) (s : PlanetState) (dts : List ℝ)
    (hr : 0 < p.radius) (hw : p.rotationVelocity ≠ 0)
    (hsum : dts.sum = 2 * Real.pi / p.rotationVelocity)
    (h0 : s.position = orbitPos p s.t) :
    (advanceSeq p s dts).position = s.position := by
  have h := (advanceSeq_closed p dts s h0).1
  rw [h, h0]
  unfold orbitPos
  have harg : (s.t + dts.sum) * p.rotationVelocity =
      s.t * p.rotationVelocity + 2 * Real.pi := by
    rw [hsum]; field_simp
  rw [harg, Real.sin_add_two_pi, Real.cos_add_two_pi]

/-- Concrete parameters for the periodicity witness: unit radius, unit
angular velocity, orbit centered at the origin. -/
noncomputable def pPeriod : PhysicsParams := ⟨1, 1, 0, ⟨0, 0, 0⟩⟩

/-- Concrete starting state for the periodicity witness, positioned on its
orbit at phase `t = 0`. -/
noncomputable def sPeriod : PlanetState := ⟨⟨0, 0, 1⟩, 0, 0⟩

/-- Witness for C8: a single `dt = 2π` advance of the unit orbit returns the
body to its starting position. -/
theorem orbit_periodicity_witness :
    (0 : ℝ) < pPeriod.radius ∧ pPeriod.rotationVelocity ≠ 0 ∧
      [2 * Real.pi].sum = 2 * Real.pi / pPeriod.rotationVelocity ∧
      sPeriod.position = orbitPos pPeriod sPeriod.t ∧
      (advanceSeq pPeriod sPeriod [2 * Real.pi]).position = sPeriod.position := by
  have h1 : (0 : ℝ) < pPeriod.radius := by norm_num [pPeriod]
  have h2 : pPeriod.rotationVelocity ≠ 0 := by norm_num [pPeriod]
  have h3 : [2 * Real.pi].sum = 2 * Real.pi / pPeriod.rotationVelocity := by
    simp [pPeriod]
  have h4 : sPeriod.position = orbitPos pPeriod sPeriod.t := by
    simp [sPeriod, pPeriod, orbitPos]
  exact ⟨h1, h2, h3, h4, orbit_periodicity pPeriod sPeriod [2 * Real.pi] h1 h2 h3 h4⟩

/-- The C9 scenario parameters: radius 5, angular velocity 1, center at the
origin (self-rotation velocity irrelevant, taken 0). -/
noncomputable def p9 : PhysicsParams := ⟨5, 1, 0, ⟨0, 0, 0⟩⟩

/-- The C9 starting state, with phase `t = 0`. -/
noncomputable def s9 : PlanetState := ⟨⟨0, 0, 0⟩, 0, 0⟩

/-- State after the first `dt = π/2` advance from `s9`. -/
noncomputable def q1 : PlanetState := advance p9 s9 (Real.pi / 2)

/-- State after the second `dt = π/2` advance. -/
noncomputable def q2 : PlanetState := advance p9 q1 (Real.pi / 2)

/-- State after the third `dt = π/2` advance. -/
noncomputable def q3 : PlanetState := advance p9 q2 (Real.pi / 2)

/-- State after the fourth `dt = π/2` advance. -/
noncomputable def q4 : PlanetState := advance p9 q3 (Real.pi / 2)

/-- State after the fifth `dt = π/2` advance. -/
noncomputable def q5 : PlanetState := advance p9 q4 (Real.pi / 2)

lemma orbitPos_p9 (t : ℝ) :
    orbitPos p9 t = ⟨5 * Real.sin t, 0, 5 * Real.cos t⟩ := by
  simp [orbitPos, p9]

/-- C9: with radius 5, angular velocity 1, center `(0,0,0)`, starting at
`t = 0` and advancing by `dt = π/2` repeatedly, the successively computed
positions are exactly `(5,0,0) → (0,0,-5) → (-5,0,0) → (0,0,5) → (5,0,0)`:
the first four advances trace the four quadrant points and the next advance
returns the body to `(5,0,0)`. -/
theorem orbit_quadrant_scenario :
    q1.position = ⟨5, 0, 0⟩ ∧ q2.position = ⟨0, 0, -5⟩ ∧
      q3.position = ⟨-5, 0, 0⟩ ∧ q4.position = ⟨0, 0, 5⟩ ∧
      q5.position = ⟨5, 0, 0⟩ := by
  have ht1 : q1.t = Real.pi / 2 := by
    have h : q1.t = s9.t + Real.pi / 2 := rfl
    rw [h]; simp [s9]
  have ht2 : q2.t = Real.pi := by
    have h : q2.t = q1.t + Real.pi / 2 := rfl
    rw [h, ht1]; ring
  have ht3 : q3.t = Real.pi + Real.pi / 2 := by
    have h : q3.t = q2.t + Real.pi / 2 := rfl
    rw [h, ht2]
  have ht4 : q4.t = 2 * Real.pi := by
    have h : q4.t = q3.t + Real.pi / 2 := rfl
    rw [h, ht3]; ring
  have ht5 : q5.t = 2 * Real.pi + Real.pi / 2 := by
    have h : q5.t = q4.t + Real.pi / 2 := rfl
    rw [h, ht4]
  refine ⟨?_, ?_, ?_, ?_, ?_⟩
  · rw [show q1.position = orbitPos p9 q1.t from rfl, ht1, orbitPos_p9]
    norm_num [Vec3.mk.injEq]
  · rw [show q2.position = orbitPos p9 q2.t from rfl, ht2, orbitPos_p9]
    norm_num [Vec3.mk.injEq]
  · rw [show q3.position = orbitPos p9 q3.t from rfl, ht3, orbitPos_p9]
    norm_num [Vec3.mk.injEq, Real.sin_add, Real.cos_add]
  · rw [show q4.position = orbitPos p9 q4.t from rfl, ht4, orbitPos_p9]
    norm_num [Vec3.mk.injEq, Real.sin_two_pi, Real.cos_two_pi]
  · rw [show q5.position = orbitPos p9 q5.t from rfl, ht5, orbitPos_p9]
    norm_num [Vec3.mk.injEq, Real.sin_add, Real.cos_add, Real.sin_two_pi,
      Real.cos_two_pi]

/-- An object's pose in the scene graph (`THREE.Object3D`): a position and
an Euler `rotation` triple (default `XYZ` order), as used by the ship and
the camera pivot. -/
structure Object3D where
  position : Vec3
  rotation : Vec3

/-- `THREE.MathUtils.lerp(x, y, t) = (1 - t) * x + t * y`. -/
def lerp (x y t : ℝ) : ℝ := (1 - t) * x + t * y

/-- `THREE.Object3D.getWorldDirection`: the object's positive z-axis in
world space.  The ship is added directly to the scene, so its world
rotation is its own Euler rotation; with the default `XYZ` Euler order the
rotated z-axis is `(sin y, -sin x * cos y, cos x * cos y)`. -/
noncomputable def getWorldDirection (rotation : Vec3) : Vec3 :=
  ⟨Real.sin rotation.y,
   -Real.sin rotation.x * Real.cos rotation.y,
   Real.cos rotation.x * Real.cos rotation.y⟩

/-- The module-level mutable state of `main.ts` that the ship controller
touches: the (possibly not yet loaded) ship, the camera pivot, the four
direction flags, and whether the UI has selected the spaceship focus
(`currentPlanet?.spacial`). -/
structure SimState where
  spaceShip : Option Object3D
  cameraPivot : Object3D
  moveForward : Bool
  moveBackward : Bool
  rotateLeft : Bool
  rotateRight : Bool
  currentPlanetSpacial : Bool

/-- `moveAndRotateSpaceShip()` from `main.ts`: when the ship is loaded, it
moves the ship by `0.3` along `getWorldDirection`, lerps the pitch
(`rotation.x`) toward `+0.2` / `-0.2` / `0` depending on
`moveBackward`/`moveForward`, handles yaw and roll for
`rotateLeft`/`rotateRight` (yaw and camera-pivot yaw `± 0.005`, roll lerped
toward `∓ 0.4`), and finally copies the ship position into the camera
pivot.  When the ship has not loaded yet it does nothing. -/
noncomputable def moveAndRotateSpaceShip (st : SimState) : SimState :=
  match st.spaceShip with
  | none => st
  | some ship =>
    let direction := getWorldDirection ship.rotation
    let newPos : Vec3 :=
      ⟨ship.position.x + direction.x * 0.3,
       ship.position.y + direction.y * 0.3,
       ship.position.z + direction.z * 0.3⟩
    let rotX :=
      if st.moveBackward then lerp ship.rotation.x 0.2 0.03
      else if st.moveForward then lerp ship.rotation.x (-0.2) 0.03
      else lerp ship.rotation.x 0 0.03
    let rotY :=
      if st.rotateLeft then ship.rotation.y + 0.005
      else if st.rotateRight then ship.rotation.y - 0.005
      else ship.rotation.y
    let pivotRotY :=
      if st.rotateLeft then st.cameraPivot.rotation.y + 0.005
      else if st.rotateRight then st.cameraPivot.rotation.y - 0.005
      else st.cameraPivot.rotation.y
    let rotZ :=
      if st.rotateLeft then lerp ship.rotation.z (-0.4) 0.03
      else if st.rotateRight then lerp ship.rotation.z 0.4 0.03
      else lerp ship.rotation.z 0 0.03
    { st with
        spaceShip := some ⟨newPos, ⟨rotX, rotY, rotZ⟩⟩
        cameraPivot :=
          ⟨newPos,
           ⟨st.cameraPivot.rotation.x, pivotRotY, st.cameraPivot.rotation.z⟩⟩ }

/-- The keys the listeners in `main.ts` react to. -/
inductive KeyCode where
  | w
  | s
  | a
  | d
  | other

/-- The `keydown` listener: only when `currentPlanet?.spacial && spaceShip`
does it set the flag matching the pressed key. -/
def onKeyDown (st : SimState) (k : KeyCode) : SimState :=
  if st.currentPlanetSpacial && st.spaceShip.isSome then
    match k with
    | KeyCode.w => { st with moveForward := true }
    | KeyCode.s => { st with moveBackward := true }
    | KeyCode.a => { st with rotateLeft := true }
    | KeyCode.d => { st with rotateRight := true }
    | KeyCode.other => st
  else st

/-- The `keyup` listener: unconditionally clears the flag matching the
released key. -/
def onKeyUp (st : SimState) (k : KeyCode) : SimState :=
  match k with
  | KeyCode.w => { st with moveForward := false }
  | KeyCode.s => { st with moveBackward := false }
  | KeyCode.a => { st with rotateLeft := false }
  | KeyCode.d => { st with rotateRight := false }
  | KeyCode.other => st

/-- The loaded ship's yaw (`rotation.y`), `0` when the ship is absent. -/
noncomputable def shipYaw (st : SimState) : ℝ :=
  match st.spaceShip with
  | some ship => ship.rotation.y
  | none => 0

/-- The loaded ship's roll (`rotation.z`), `0` when the ship is absent. -/
noncomputable def shipRoll (st : SimState) : ℝ :=
  match st.spaceShip with
  | some ship => ship.rotation.z
  | none => 0

/-- A concrete loaded ship at the origin with zero rotation. -/
noncomputable def ship0 : Object3D := ⟨⟨0, 0, 0⟩, ⟨0, 0, 0⟩⟩

/-- A concrete camera pivot at the origin with zero rotation. -/
noncomputable def pivot0 : Object3D := ⟨⟨0, 0, 0⟩, ⟨0, 0, 0⟩⟩

/-- Concrete state: ship loaded, ship focus active, no flags set. -/
noncomputable def stLoaded : SimState :=
  ⟨some ship0, pivot0, false, false, false, false, true⟩

/-- Concrete state: ship not yet loaded, every flag set. -/
noncomputable def stEmpty : SimState :=
  ⟨none, pivot0, true, true, true, true, false⟩

/-- Concrete state: ship loaded and every direction flag set. -/
noncomputable def stBoth : SimState :=
  ⟨some ship0, pivot0, true, true, true, true, true⟩

/-- Concrete state: ship loaded, only `rotateLeft` held. -/
noncomputable def stYawLeft : SimState :=
  ⟨some ship0, pivot0, false, false, true, false, true⟩

/-- C3: when the ship model has not finished loading (`spaceShip` is
`null`), the ship advance operation changes no state at all — ship, camera
pivot and flags are left untouched, whatever the input flags are. -/
theorem advance_noop_when_ship_missing (st : SimState)
    (h : st.spaceShip = none) :
    moveAndRotateSpaceShip st = st := by
  obtain ⟨ss, piv, mf, mb, rl, rr, sp⟩ := st
  replace h : ss = none := h
  subst h
  rfl

/-- Witness for C3 at a concrete unloaded state with all flags set. -/
theorem advance_noop_when_ship_missing_witness :
    moveAndRotateSpaceShip stEmpty = stEmpty :=
  advance_noop_when_ship_missing stEmpty rfl

/-- C2: with the ship loaded, every advance tick translates the ship by the
fixed step `0.3` along its current world forward direction, for every
combination of input flags — the flags do not gate the translation. -/
theorem ship_moves_forward_unconditionally (st : SimState) (ship : Object3D)
    (h : st.spaceShip = some ship) :
    ∃ s', (moveAndRotateSpaceShip st).spaceShip = some s' ∧
      s'.position =
        ⟨ship.position.x + (getWorldDirection ship.rotation).x * 0.3,
         ship.position.y + (getWorldDirection ship.rotation).y * 0.3,
         ship.position.z + (getWorldDirection ship.rotation).z * 0.3⟩ := by
  obtain ⟨ss, piv, mf, mb, rl, rr, sp⟩ := st
  replace h : ss = some ship := h
  subst h
  exact ⟨_, rfl, rfl⟩

/-- Witness for C2 at a concrete loaded state. -/
theorem ship_moves_forward_unconditionally_witness :
    ∃ s', (moveAndRotateSpaceShip stLoaded).spaceShip = some s' ∧
      s'.position =
        ⟨ship0.position.x + (getWorldDirection ship0.rotation).x * 0.3,
         ship0.position.y + (getWorldDirection ship0.rotation).y * 0.3,
         ship0.position.z + (getWorldDirection ship0.rotation).z * 0.3⟩ :=
  ship_moves_forward_unconditionally stLoaded ship0 rfl

/-- C4: with the ship loaded, each tick sets the camera pivot's position to
the ship's (new) position and changes the pivot yaw by exactly the ship's
yaw increment, so the yaw offset between pivot and ship is preserved. -/
theorem camera_pivot_lockstep (st : SimState) (ship : Object3D)
    (h : st.spaceShip = some ship) :
    ∃ s', (moveAndRotateSpaceShip st).spaceShip = some s' ∧
      (moveAndRotateSpaceShip st).cameraPivot.position = s'.position ∧
      (moveAndRotateSpaceShip st).cameraPivot.rotation.y -
          st.cameraPivot.rotation.y = s'.rotation.y - ship.rotation.y ∧
      (moveAndRotateSpaceShip st).cameraPivot.rotation.y - s'.rotation.y =
        st.cameraPivot.rotation.y - ship.rotation.y := by
  obtain ⟨ss, piv, mf, mb, rl, rr, sp⟩ := st
  replace h : ss = some ship := h
  subst h
  refine ⟨_, rfl, rfl, ?_, ?_⟩ <;>
    cases rl <;> cases rr <;> simp [moveAndRotateSpaceShip]

/-- Witness for C4 at a concrete loaded state. -/
theorem camera_pivot_lockstep_witness :
    ∃ s', (moveAndRotateSpaceShip stLoaded).spaceShip = some s' ∧
      (moveAndRotateSpaceShip stLoaded).cameraPivot.position = s'.position ∧
      (moveAndRotateSpaceShip stLoaded).cameraPivot.rotation.y -
          stLoaded.cameraPivot.rotation.y =
        s'.rotation.y - ship0.rotation.y ∧
      (moveAndRotateSpaceShip stLoaded).cameraPivot.rotation.y -
          s'.rotation.y =
        stLoaded.cameraPivot.rotation.y - ship0.rotation.y :=
  camera_pivot_lockstep stLoaded ship0 rfl

/-- C5: opposite simultaneous flags resolve first-match-wins: with both
`moveBackward` and `moveForward` set the pitch is lerped toward backward's
target `+0.2`; with both `rotateLeft` and `rotateRight` set, `rotateLeft`'s
yaw increment `+0.005` and roll target `-0.4` are used. -/
theorem opposite_flags_first_match_wins (st : SimState) (ship : Object3D)
    (h : st.spaceShip = some ship) :
    (st.moveBackward = true → st.moveForward = true →
      ∃ s', (moveAndRotateSpaceShip st).spaceShip = some s' ∧
        s'.rotation.x = lerp ship.rotation.x 0.2 0.03) ∧
    (st.rotateLeft = true → st.rotateRight = true →
      ∃ s', (moveAndRotateSpaceShip st).spaceShip = some s' ∧
        s'.rotation.y = ship.rotation.y + 0.005 ∧
        s'.rotation.z = lerp ship.rotation.z (-0.4) 0.03) := by
  obtain ⟨ss, piv, mf, mb, rl, rr, sp⟩ := st
  replace h : ss = some ship := h
  subst h
  constructor
  · intro hb hf
    replace hb : mb = true := hb
    subst hb
    refine ⟨_, rfl, ?_⟩
    simp [moveAndRotateSpaceShip]
  · intro hl hr
    replace hl : rl = true := hl
    subst hl
    refine ⟨_, rfl, ?_, ?_⟩ <;> simp [moveAndRotateSpaceShip]

/-- Witness for C5 at a concrete loaded state with all four flags set. -/
theorem opposite_flags_first_match_wins_witness :
    (∃ s', (moveAndRotateSpaceShip stBoth).spaceShip = some s' ∧
       s'.rotation.x = lerp ship0.rotation.x 0.2 0.03) ∧
    (∃ s', (moveAndRotateSpaceShip stBoth).spaceShip = some s' ∧
       s'.rotation.y = ship0.rotation.y + 0.005 ∧
       s'.rotation.z = lerp ship0.rotation.z (-0.4) 0.03) :=
  ⟨(opposite_flags_first_match_wins stBoth ship0 rfl).1 rfl rfl,
   (opposite_flags_first_match_wins stBoth ship0 rfl).2 rfl rfl⟩

/-- C6: every advance tick preserves the tilt bounds `|roll| ≤ 0.4` and
`|pitch| ≤ 0.2`, for every combination of input flags, because each tilt
angle is lerped with factor `0.03` toward a target inside those bounds. -/
theorem tilt_bounds_preserved (st : SimState) (ship : Object3D)
    (h : st.spaceShip = some ship)
    (hz : |ship.rotation.z| ≤ 0.4) (hx : |ship.rotation.x| ≤ 0.2) :
    ∃ s', (moveAndRotateSpaceShip st).spaceShip = some s' ∧
      |s'.rotation.z| ≤ 0.4 ∧ |s'.rotation.x| ≤ 0.2 := by
  obtain ⟨ss, piv, mf, mb, rl, rr, sp⟩ := st
  replace h : ss = some ship := h
  subst h
  rw [abs_le] at hz hx
  refine ⟨_, rfl, ?_, ?_⟩
  · rw [abs_le]
    cases rl <;> cases rr <;>
      simp [moveAndRotateSpaceShip, lerp] <;>
      constructor <;> linarith [hz.1, hz.2]
  · rw [abs_le]
    cases mb <;> cases mf <;>
      simp [moveAndRotateSpaceShip, lerp] <;>
      constructor <;> linarith [hx.1, hx.2]

/-- Witness for C6 at a concrete loaded state within the bounds. -/
theorem tilt_bounds_preserved_witness :
    ∃ s', (moveAndRotateSpaceShip stLoaded).spaceShip = some s' ∧
      |s'.rotation.z| ≤ 0.4 ∧ |s'.rotation.x| ≤ 0.2 :=
  tilt_bounds_preserved stLoaded ship0 rfl (by norm_num [ship0])
    (by norm_num [ship0])

lemma tick_yawLeft_step (st : SimState) (h : st.spaceShip.isSome = true)
    (hl : st.rotateLeft = true) :
    (moveAndRotateSpaceShip st).spaceShip.isSome = true ∧
      (moveAndRotateSpaceShip st).rotateLeft = true ∧
      shipYaw (moveAndRotateSpaceShip st) = shipYaw st + 0.005 ∧
      shipRoll (moveAndRotateSpaceShip st) =
        lerp (shipRoll st) (-0.4) 0.03 := by
  obtain ⟨ss, piv, mf, mb, rl, rr, sp⟩ := st
  replace hl : rl = true := hl
  subst hl
  cases ss with
  | none => simp at h
  | some ship =>
      refine ⟨rfl, rfl, ?_, ?_⟩ <;>
        simp [moveAndRotateSpaceShip, shipYaw, shipRoll]

lemma yawLeft_closed_form (st : SimState) (h : st.spaceShip.isSome = true)
    (hl : st.rotateLeft = true) (k : ℕ) :
    (moveAndRotateSpaceShip^[k] st).spaceShip.isSome = true ∧
      (moveAndRotateSpaceShip^[k] st).rotateLeft = true ∧
      shipYaw (moveAndRotateSpaceShip^[k] st) = shipYaw st + 0.005 * k ∧
      shipRoll (moveAndRotateSpaceShip^[k] st) + 0.4 =
        0.97 ^ k * (shipRoll st + 0.4) := by
  induction k with
  | zero => simp [h, hl]
  | succ k ih =>
      obtain ⟨h1, h2, h3, h4⟩ := ih
      have step := tick_yawLeft_step _ h1 h2
      rw [Function.iterate_succ_apply']
      refine ⟨step.1, step.2.1, ?_, ?_⟩
      · rw [step.2.2.1, h3]
        push_cast
        ring
      · have hroll : shipRoll (moveAndRotateSpaceShip^[k] st) =
            0.97 ^ k * (shipRoll st + 0.4) - 0.4 := by linarith
        rw [step.2.2.2, hroll]
        simp only [lerp]
        ring

/-- C7 counterexample: with `rotateLeft` held (the other flags clear) the
yaw does not decrease over a tick — at a concrete loaded state the tick
takes the yaw from `0` to `0.005`, strictly increasing. -/
theorem yawLeft_yaw_decreases_cex :
    shipYaw stYawLeft < shipYaw (moveAndRotateSpaceShip stYawLeft) ∧
      ¬ shipYaw (moveAndRotateSpaceShip stYawLeft) < shipYaw stYawLeft := by
  have h := (tick_yawLeft_step stYawLeft rfl rfl).2.2.1
  rw [h]
  constructor
  · norm_num
  · intro hlt
    norm_num at hlt

/-- C7 (amended): with `yawLeft` held true (and the other flags false) for
consecutive ticks with the ship loaded, the ship's yaw increases
monotonically (by `0.005` per tick, not decreases), and its roll converges
monotonically toward the negative roll bound `-0.4` without ever
overshooting it. -/
theorem yawLeft_monotonicity (st : SimState) (h : st.spaceShip.isSome = true)
    (hl : st.rotateLeft = true) (hf : st.moveForward = false)
    (hb : st.moveBackward = false) (hr : st.rotateRight = false) (k : ℕ) :
    shipYaw (moveAndRotateSpaceShip^[k] st) <
        shipYaw (moveAndRotateSpaceShip^[k + 1] st) ∧
      |shipRoll (moveAndRotateSpaceShip^[k + 1] st) + 0.4| ≤
        |shipRoll (moveAndRotateSpaceShip^[k] st) + 0.4| ∧
      (-0.4 ≤ shipRoll st →
        -0.4 ≤ shipRoll (moveAndRotateSpaceShip^[k] st)) ∧
      (shipRoll st ≤ -0.4 →
        shipRoll (moveAndRotateSpaceShip^[k] st) ≤ -0.4) := by
  obtain ⟨h1, h2, h3, h4⟩ := yawLeft_closed_form st h hl k
  obtain ⟨g1, g2, g3, g4⟩ := yawLeft_closed_form st h hl (k + 1)
  have hpow : (0 : ℝ) ≤ 0.97 ^ k := by positivity
  have hpow1 : (0 : ℝ) ≤ 0.97 ^ (k + 1) := by positivity
  refine ⟨?_, ?_, ?_, ?_⟩
  · rw [h3, g3]
    push_cast
    linarith
  · have hmono : (0.97 : ℝ) ^ (k + 1) ≤ 0.97 ^ k :=
      pow_le_pow_of_le_one (by norm_num) (by norm_num) (Nat.le_succ k)
    rw [h4, g4, abs_mul, abs_mul, abs_of_nonneg hpow, abs_of_nonneg hpow1]
    exact mul_le_mul_of_nonneg_right hmono (abs_nonneg _)
  · intro h0
    nlinarith
  · intro h0
    nlinarith

/-- Witness for the amended C7 at a concrete loaded state with only
`rotateLeft` held and `k = 0`. -/
theorem yawLeft_monotonicity_witness :
    shipYaw (moveAndRotateSpaceShip^[0] stYawLeft) <
        shipYaw (moveAndRotateSpaceShip^[0 + 1] stYawLeft) ∧
      |shipRoll (moveAndRotateSpaceShip^[0 + 1] stYawLeft) + 0.4| ≤
        |shipRoll (moveAndRotateSpaceShip^[0] stYawLeft) + 0.4| ∧
      (-0.4 ≤ shipRoll stYawLeft →
        -0.4 ≤ shipRoll (moveAndRotateSpaceShip^[0] stYawLeft)) ∧
      (shipRoll stYawLeft ≤ -0.4 →
        shipRoll (moveAndRotateSpaceShip^[0] stYawLeft) ≤ -0.4) :=
  yawLeft_monotonicity stYawLeft rfl rfl rfl rfl rfl 0

/-- C10: a key-down for W/S/A/D sets the matching direction flag only when
ship-focus mode is active and the ship model is loaded (otherwise it is a
no-op), while a key-up clears the matching flag unconditionally, so after a
key-up that direction's flag is false regardless of mode. -/
theorem key_events_flag_discipline (st : SimState) :
    (¬ (st.currentPlanetSpacial = true ∧ st.spaceShip.isSome = true) →
        ∀ k, onKeyDown st k = st) ∧
      (onKeyUp st KeyCode.w).moveForward = false ∧
      (onKeyUp st KeyCode.s).moveBackward = false ∧
      (onKeyUp st KeyCode.a).rotateLeft = false ∧
      (onKeyUp st KeyCode.d).rotateRight = false ∧
      (st.currentPlanetSpacial = true → st.spaceShip.isSome = true →
        (onKeyDown st KeyCode.w).moveForward = true ∧
          (onKeyDown st KeyCode.s).moveBackward = true ∧
          (onKeyDown st KeyCode.a).rotateLeft = true ∧
          (onKeyDown st KeyCode.d).rotateRight = true) := by
  refine ⟨?_, rfl, rfl, rfl, rfl, ?_⟩
  · intro hng k
    have hguard : (st.currentPlanetSpacial && st.spaceShip.isSome) = false := by
      cases hsp : st.currentPlanetSpacial <;>
        cases hss : st.spaceShip.isSome <;> simp_all
    cases k <;> simp [onKeyDown, hguard]
  · intro hsp hss
    have hguard : (st.currentPlanetSpacial && st.spaceShip.isSome) = true := by
      rw [hsp, hss]; rfl
    refine ⟨?_, ?_, ?_, ?_⟩ <;> simp [onKeyDown, hguard]

/-- Witness for C10: out of ship mode, W key-down is a no-op and key-up
clears the flag; in ship mode with the ship loaded, key-down sets it. -/
theorem key_events_flag_discipline_witness :
    onKeyDown stEmpty KeyCode.w = stEmpty ∧
      (onKeyUp stEmpty KeyCode.w).moveForward = false ∧
      (onKeyDown stLoaded KeyCode.w).moveForward = true :=
  ⟨(key_events_flag_discipline stEmpty).1 (by simp [stEmpty]) KeyCode.w,
   (key_events_flag_discipline stEmpty).2.1,
   ((key_events_flag_discipline stLoaded).2.2.2.2.2 rfl rfl).1⟩
